import Mathlib

/-!
# PlayIntel — verification of the quota tracker, chat send path and chat history

Shallow embedding of the client-side quota tracker and chat state
(`landing/app/context/AuthContext.tsx`, here `src/unnamed/part_009`), the
chat send path (`landing/app/brand/page.tsx`), the signup endpoint
(`src/unnamed/part_008`) and the pricing tables, together with theorems
about their behaviour.

Timestamps: JavaScript `Date` values are modelled as a pair of a calendar
month index (`year * 12 + monthIndex`, i.e. months since the epoch) and a
millisecond offset inside that month, ordered lexicographically.  This is
order-isomorphic to real timestamps and makes
`new Date(now.getFullYear(), now.getMonth() + 1, 1)` — the first instant of
the next calendar month — expressible exactly as `⟨month + 1, 0⟩`.
-/

namespace PlayIntel

/-- A calendar instant: `month` is the number of calendar months since the
epoch (`year * 12 + monthIndex`), `offset` the time elapsed inside that
month.  Ordered lexicographically, matching `Date` comparison. -/
structure Time where
  month : Nat
  offset : Nat
deriving DecidableEq, Repr

/-- Boolean order on instants (`a ≤ b` as JavaScript `Date` comparison). -/
def Time.leb (a b : Time) : Bool :=
  decide (a.month < b.month ∨ (a.month = b.month ∧ a.offset ≤ b.offset))

theorem Time.leb_iff {a b : Time} :
    Time.leb a b = true ↔ a.month < b.month ∨ (a.month = b.month ∧ a.offset ≤ b.offset) := by
  simp [Time.leb]

theorem Time.leb_trans {a b c : Time} (h1 : Time.leb a b = true)
    (h2 : Time.leb b c = true) : Time.leb a c = true := by
  rw [Time.leb_iff] at h1 h2 ⊢
  omega

/-- `getNextQueryResetDate`: `new Date(now.getFullYear(), now.getMonth() + 1, 1)`,
the first instant of the next calendar month. -/
def getNextQueryResetDate (now : Time) : Time :=
  ⟨now.month + 1, 0⟩

/-- `PlanTier` from AuthContext. -/
inductive PlanTier
  | free
  | indie
  | studio
deriving DecidableEq, Repr

/-- `PLAN_LIMITS` from AuthContext (`-1` means unlimited). -/
def PLAN_LIMITS : PlanTier → Int
  | .free => 5
  | .indie => 150
  | .studio => -1

/-- `User` from AuthContext (Stripe fields omitted; they play no role in
quota tracking). -/
structure User where
  id : String
  email : String
  name : String
  plan : PlanTier
  queriesUsed : Int
  queryLimit : Int
  queryResetDate : Time
deriving DecidableEq, Repr

/-- `Session` from AuthContext. -/
structure Session where
  user : User
  token : String
  expiresAt : Time
deriving DecidableEq, Repr

/-- `canQuery` from AuthContext: false without a session; unlimited plans
always allowed; after the stored reset instant always allowed; otherwise
allowed while `queriesUsed < queryLimit`. -/
def canQuery (session : Option Session) (now : Time) : Bool :=
  match session with
  | none => false
  | some s =>
    if s.user.queryLimit = -1 then true
    else if Time.leb s.user.queryResetDate now then true
    else decide (s.user.queriesUsed < s.user.queryLimit)

/-- `getRemainingQueries` from AuthContext. -/
def getRemainingQueries (session : Option Session) (now : Time) : Int :=
  match session with
  | none => 0
  | some s =>
    if s.user.queryLimit = -1 then -1
    else if Time.leb s.user.queryResetDate now then s.user.queryLimit
    else max 0 (s.user.queryLimit - s.user.queriesUsed)

/-- Core of `incrementQueryCount` from AuthContext: on rollover
(`now ≥ resetDate`) charge the request to the new period (`queriesUsed = 1`,
fresh reset date), otherwise add one. -/
def incrementUser (u : User) (now : Time) : User :=
  if Time.leb u.queryResetDate now then
    { u with queriesUsed := 1, queryResetDate := getNextQueryResetDate now }
  else
    { u with queriesUsed := u.queriesUsed + 1 }

/-- `incrementQueryCount` from AuthContext (no-op without a session). -/
def incrementQueryCount (session : Option Session) (now : Time) : Option Session :=
  match session with
  | none => none
  | some s => some { s with user := incrementUser s.user now }

/-! ## String containment (for vocabulary checks on user-visible messages) -/

/-- Boolean prefix test on character lists. -/
def isPrefixOfB : List Char → List Char → Bool
  | [], _ => true
  | _ :: _, [] => false
  | a :: as, b :: bs => a == b && isPrefixOfB as bs

/-- Boolean substring test on character lists: does `pat` occur inside the
first list? -/
def containsSeq : List Char → List Char → Bool
  | _, [] => true
  | [], _ :: _ => false
  | h :: hs, p :: ps => isPrefixOfB (p :: ps) (h :: hs) || containsSeq hs (p :: ps)

/-- Does string `s` contain `t` as a substring? -/
def strContains (s t : String) : Bool :=
  containsSeq s.data t.data

/-- Drop leading whitespace from a character list. -/
def dropWhileWs : List Char → List Char
  | [] => []
  | c :: cs => if c.isWhitespace then dropWhileWs cs else c :: cs

/-- JavaScript `String.prototype.trim`: strip leading and trailing
whitespace. -/
def trimStr (s : String) : String :=
  ⟨(dropWhileWs (dropWhileWs s.data).reverse).reverse⟩

/-! ## The chat send path (`sendMessage` in `landing/app/brand/page.tsx`) -/

/-- Message roles. -/
inductive Role
  | user
  | assistant
deriving DecidableEq, Repr

/-- A UI chat message as built by `sendMessage` (ids and timestamps are
irrelevant to the claims and omitted). -/
structure Message where
  role : Role
  content : String
  sqlQuery : Option String
deriving DecidableEq, Repr

/-- Outcome of the `fetch` to `/api/chat`: the network call threw, the
response was non-OK (the code then throws and lands in the same catch
block), or an OK response carrying the parsed answer. -/
inductive FetchResult
  | netError
  | httpError (status : Nat)
  | ok (answer : String) (sqlQueryField : Option String)
deriving DecidableEq, Repr

/-- The quota-limit message `sendMessage` inserts when `canQuery()` is
false: a fixed prefix, then an upgrade pitch for free-plan users or a
reset notice for the rest. -/
def limitMessageContent (isFree : Bool) : String :=
  "You\x27ve reached your monthly query limit. " ++
    (if isFree then
      "Upgrade to Indie ($25/mo) for 150 queries or Studio ($59/mo) for unlimited queries."
    else
      "Your queries will reset on the 1st of next month.")

/-- The failure message `sendMessage` inserts when the fetch throws or the
response is non-OK. -/
def fetchErrorContent : String :=
  "Sorry, I encountered an error connecting to the database. Please check that the backend server is running on port 8000."

/-- `user?.plan === \x27free\x27` as evaluated inside `sendMessage` (false when
there is no user). -/
def isFreePlan : Option Session → Bool
  | none => false
  | some s => decide (s.user.plan = PlanTier.free)

/-- Result of one `sendMessage` call: whether `/api/chat` was contacted,
how many times `incrementQueryCount` ran, the quota state afterwards, and
the messages appended to the visible chat (loading placeholders resolved). -/
structure SendOutcome where
  backendCalled : Bool
  quotaIncrements : Nat
  session : Option Session
  appended : List Message
deriving DecidableEq, Repr

/-- `sendMessage` from `landing/app/brand/page.tsx`, as a function of the
trimmed-text guard, the loading flag, the quota state, the instants of the
send and of the response, and the fetch outcome.  Empty text or an
in-flight request: nothing happens.  `canQuery()` false: the user message
plus the quota-limit message are inserted locally, no backend call.
Otherwise `/api/chat` is called; on an OK response `incrementQueryCount`
runs once and the answer is shown; on a thrown error or non-OK response
the count is untouched and the fixed failure message is shown. -/
def sendMessage (text : String) (isLoading : Bool) (session : Option Session)
    (sendTime respTime : Time) (result : FetchResult) : SendOutcome :=
  if trimStr text = "" ∨ isLoading = true then
    ⟨false, 0, session, []⟩
  else if canQuery session sendTime = false then
    ⟨false, 0, session,
      [⟨Role.user, trimStr text, none⟩,
       ⟨Role.assistant, limitMessageContent (isFreePlan session), none⟩]⟩
  else
    match result with
    | .ok answer sq =>
        ⟨true, 1, incrementQueryCount session respTime,
          [⟨Role.user, trimStr text, none⟩, ⟨Role.assistant, answer, sq⟩]⟩
    | .netError =>
        ⟨true, 0, session,
          [⟨Role.user, trimStr text, none⟩, ⟨Role.assistant, fetchErrorContent, none⟩]⟩
    | .httpError _ =>
        ⟨true, 0, session,
          [⟨Role.user, trimStr text, none⟩, ⟨Role.assistant, fetchErrorContent, none⟩]⟩

/-- One complete chat interaction as the tracker sees it: the text typed,
the loading flag, the instants of send and of response, and the fetch
outcome. -/
structure ChatEvent where
  text : String
  isLoading : Bool
  sendTime : Time
  respTime : Time
  result : FetchResult

/-- Quota-state effect of one `sendMessage` call. -/
def stepEvent (session : Option Session) (e : ChatEvent) : Option Session :=
  (sendMessage e.text e.isLoading session e.sendTime e.respTime e.result).session

/-- Quota-state effect of a sequence of chat interactions. -/
def runEvents (session : Option Session) (events : List ChatEvent) : Option Session :=
  events.foldl stepEvent session

/-! ## Signup endpoint and pricing tables -/

/-- The `query_limit` stored by the signup endpoint
(`app/api/auth/signup/route.ts`, here `src/unnamed/part_008`):
`plan === \x27free\x27 ? 30 : plan === \x27indie\x27 ? 150 : -1`. -/
def signupQueryLimit (plan : String) : Int :=
  if plan = "free" then 30 else if plan = "indie" then 150 else -1

/-- One entry of the pricing page's `PLANS` table. -/
structure PricingPlan where
  id : String
  name : String
  price : String
  queries : String
  features : List String
deriving DecidableEq, Repr

/-- The pricing page's `PLANS` table (`src/unnamed/part_009`, lines
504–522): a single free plan advertising 30 queries per month. -/
def pricingPlans : List PricingPlan :=
  [⟨"free", "Free", "$0", "30 queries/month",
    ["30 queries per month", "Access to all 77,274 games",
     "Full market insights", "CSV export"]⟩]

/-! ## Chat history state (AuthContext) -/

/-- `ChatMessage` from AuthContext. -/
structure ChatMessage where
  id : String
  role : Role
  content : String
  timestamp : Time
  sqlQuery : Option String
deriving DecidableEq, Repr

/-- `ChatSession` from AuthContext. -/
structure ChatSession where
  id : String
  title : String
  messages : List ChatMessage
  createdAt : Time
  updatedAt : Time
deriving DecidableEq, Repr

/-- The chat-history portion of the provider's React state. -/
structure ChatState where
  chatSessions : List ChatSession
  currentChatId : Option String
deriving DecidableEq, Repr

/-- `generateChatTitle` from AuthContext: first user message truncated to
40 characters, with an ellipsis when truncated. -/
def generateChatTitle (messages : List ChatMessage) : String :=
  match messages.find? (fun m => decide (m.role = Role.user)) with
  | some m =>
      let title := m.content.take 40
      if title.length < m.content.length then title ++ "..." else title
  | none => "New Chat"

/-- `createNewChat` from AuthContext: prepend a fresh empty chat (with the
freshly generated id) and select it. -/
def createNewChat (st : ChatState) (newChatId : String) (now : Time) : ChatState :=
  { chatSessions := ⟨newChatId, "New Chat", [], now, now⟩ :: st.chatSessions,
    currentChatId := some newChatId }

/-- `selectChat` from AuthContext: only the current-chat pointer moves. -/
def selectChat (st : ChatState) (chatId : String) : ChatState :=
  { st with currentChatId := some chatId }

/-- The per-chat update inside `saveMessage`: the targeted chat gets the
message appended at the end (and, when it was empty and the message is the
user's, a generated title); every other chat is returned as-is. -/
def appendToChat (chatId : String) (message : ChatMessage) (now : Time)
    (chat : ChatSession) : ChatSession :=
  if chat.id = chatId then
    { chat with
      messages := chat.messages ++ [message],
      title := if chat.messages.length = 0 ∧ message.role = Role.user
               then generateChatTitle [message] else chat.title,
      updatedAt := now }
  else chat

/-- `saveMessage` from AuthContext: create (and select) a fresh chat when
none is current, then map `appendToChat` over the session list. -/
def saveMessage (st : ChatState) (message : ChatMessage) (newChatId : String)
    (now : Time) : ChatState :=
  match st.currentChatId with
  | none =>
      let st1 := createNewChat st newChatId now
      { st1 with chatSessions := st1.chatSessions.map (appendToChat newChatId message now) }
  | some cid =>
      { st with chatSessions := st.chatSessions.map (appendToChat cid message now) }

/-- `renameChat` from AuthContext: retitle the targeted chat
(trimmed new title, or the fallback Untitled Chat when the trimmed title
is empty), touch its `updatedAt`, leave its
messages and all other chats alone. -/
def renameChat (st : ChatState) (chatId : String) (newTitle : String)
    (now : Time) : ChatState :=
  { st with chatSessions := st.chatSessions.map (fun chat =>
      if chat.id = chatId then
        { chat with
          title := if trimStr newTitle = "" then "Untitled Chat" else trimStr newTitle,
          updatedAt := now }
      else chat) }

/-! ## Executor / Repair Loop

Modelled from the spec: the backend analytical pipeline (`backend/main.py`,
the FastAPI `/api/chat` service with its bounded query-repair loop) is not
among the source files; only its documentation and callers are.  Following
the spec: the loop runs the current query, a failure transitions to a
repair while `attempt_index < MAX_REPAIR_ATTEMPTS`, and once the budget is
spent it ends in the `Exhausted` terminal state; success at any attempt
ends in `Succeeded`. -/

/-- Modelled from the spec: the repair budget, two repairs beyond the
first try. -/
def MAX_REPAIR_ATTEMPTS : Nat := 2

/-- Modelled from the spec: the two terminal states of the Executor/Repair
Loop, each carrying the number of execution tries performed. -/
inductive LoopResult
  | Succeeded (tries : Nat)
  | Exhausted (tries : Nat)
deriving DecidableEq, Repr

/-- Number of execution tries a terminal state accounts for. -/
def LoopResult.tries : LoopResult → Nat
  | .Succeeded n => n
  | .Exhausted n => n

/-- Modelled from the spec: run attempts starting at `attempt`, with
`budget` repairs still allowed; `exec i` tells whether the `i`-th synthesis
executes successfully. -/
def runRepair (exec : Nat → Bool) : Nat → Nat → LoopResult
  | attempt, 0 =>
      if exec attempt then .Succeeded (attempt + 1) else .Exhausted (attempt + 1)
  | attempt, budget + 1 =>
      if exec attempt then .Succeeded (attempt + 1) else runRepair exec (attempt + 1) budget

/-- Modelled from the spec: the whole Executor/Repair Loop, first try plus
at most `MAX_REPAIR_ATTEMPTS` repairs. -/
def repairLoop (exec : Nat → Bool) : LoopResult :=
  runRepair exec 0 MAX_REPAIR_ATTEMPTS

/-! ## Concrete example states used by witnesses and counterexamples -/

/-- A fresh free-tier account as `TEST_ACCOUNTS` builds it: zero queries
used, limit `PLAN_LIMITS.free`, reset date one month ahead. -/
def exUserFree : User :=
  ⟨"user_free_001", "free@playintel.io", "Free User", PlanTier.free, 0,
   PLAN_LIMITS PlanTier.free, ⟨1, 0⟩⟩

/-- A session holding `exUserFree`. -/
def exSessionFree : Session := ⟨exUserFree, "pi_tok", ⟨2, 0⟩⟩

/-- `exSessionFree` after one counted request inside the current period. -/
def exFinalSession : Session :=
  ⟨⟨"user_free_001", "free@playintel.io", "Free User", PlanTier.free, 1,
    PLAN_LIMITS PlanTier.free, ⟨1, 0⟩⟩, "pi_tok", ⟨2, 0⟩⟩

/-- One successful chat interaction. -/
def exEvents : List ChatEvent :=
  [⟨"hi", false, ⟨0, 0⟩, ⟨0, 1⟩, FetchResult.ok "The average is 6.7 hours." none⟩]

/-- A free-plan account that has used all 30 of a 30-query allowance, with
the reset date still a month away. -/
def exSession30 : Session :=
  ⟨⟨"u30", "signup30@example.com", "Signup User", PlanTier.free, 30, 30, ⟨1, 0⟩⟩,
   "pi_tok", ⟨2, 0⟩⟩

/-- An indie-plan account that has used all 150 of its allowance, with the
reset date still a month away. -/
def exSessionIndieFull : Session :=
  ⟨⟨"user_indie_001", "indie@playintel.io", "Indie Developer", PlanTier.indie, 150,
    PLAN_LIMITS PlanTier.indie, ⟨1, 0⟩⟩, "pi_tok", ⟨2, 0⟩⟩

/-- An indie-plan account observed after its reset instant has passed. -/
def exSessionRoll : Session :=
  ⟨⟨"user_indie_001", "indie@playintel.io", "Indie Developer", PlanTier.indie, 7,
    PLAN_LIMITS PlanTier.indie, ⟨0, 5⟩⟩, "pi_tok", ⟨9, 0⟩⟩

/-- A studio-tier account (unlimited plan). -/
def exSessionStudio : Session :=
  ⟨⟨"user_studio_001", "studio@playintel.io", "Studio Team", PlanTier.studio, 400,
    PLAN_LIMITS PlanTier.studio, ⟨1, 0⟩⟩, "pi_tok", ⟨2, 0⟩⟩

/-- A free-plan account that has used exactly `PLAN_LIMITS.free` queries. -/
def exSessionFreeAt5 : Session :=
  ⟨⟨"user_free_001", "free@playintel.io", "Free User", PlanTier.free, 5,
    PLAN_LIMITS PlanTier.free, ⟨1, 0⟩⟩, "pi_tok", ⟨2, 0⟩⟩

/-- A chat thread with one empty chat selected. -/
def exChatState : ChatState :=
  ⟨[⟨"c1", "New Chat", [], ⟨0, 0⟩, ⟨0, 0⟩⟩], some "c1"⟩

/-- A user chat message. -/
def exChatMsg : ChatMessage := ⟨"m1", Role.user, "hello", ⟨0, 1⟩, none⟩

/-! ## Theorems -/

/-- C6: for a signed-in user whose `queryLimit` is `-1` (the unlimited
studio plan), `canQuery` allows the request regardless of `queriesUsed`
and of the reset date, and `getRemainingQueries` reports `-1`
(unlimited), never a finite number. -/
theorem unlimited_plan_always_allowed (s : Session) (now : Time)
    (h : s.user.queryLimit = -1) :
    canQuery (some s) now = true ∧ getRemainingQueries (some s) now = -1 := by
  simp [canQuery, getRemainingQueries, h]

theorem unlimited_plan_always_allowed_witness :
    canQuery (some exSessionStudio) ⟨0, 0⟩ = true ∧
    getRemainingQueries (some exSessionStudio) ⟨0, 0⟩ = -1 :=
  unlimited_plan_always_allowed exSessionStudio ⟨0, 0⟩ (by decide)

/-- C4: when a counted request arrives at or after the stored reset
instant, `incrementQueryCount` charges it to the new period —
`queriesUsed` becomes 1, not the prior count plus 1 — and the new reset
date is `getNextQueryResetDate now`, the first instant of the next
calendar month (`⟨now.month + 1, 0⟩` in the month/offset model of
`new Date(getFullYear(), getMonth() + 1, 1)`). -/
theorem rollover_charges_new_period (s : Session) (now : Time)
    (hroll : Time.leb s.user.queryResetDate now = true) :
    incrementQueryCount (some s) now =
      some { s with user := { s.user with
              queriesUsed := 1,
              queryResetDate := getNextQueryResetDate now } } ∧
    getNextQueryResetDate now = ⟨now.month + 1, 0⟩ := by
  simp [incrementQueryCount, incrementUser, hroll, getNextQueryResetDate]

theorem rollover_charges_new_period_witness :
    incrementQueryCount (some exSessionRoll) ⟨1, 3⟩ =
      some { exSessionRoll with user := { exSessionRoll.user with
              queriesUsed := 1,
              queryResetDate := getNextQueryResetDate ⟨1, 3⟩ } } ∧
    getNextQueryResetDate ⟨1, 3⟩ = ⟨2, 0⟩ :=
  rollover_charges_new_period exSessionRoll ⟨1, 3⟩ (by decide)

/-- C10: the repository carries two different free-plan monthly limits:
the client quota tracker's `PLAN_LIMITS` gives free accounts 5 (so a free
test account at 5 used queries is denied), while the signup endpoint
stores `query_limit = 30` and the pricing page advertises
"30 queries/month"; 5 ≠ 30. -/
theorem free_plan_limits_disagree :
    PLAN_LIMITS PlanTier.free = 5 ∧
    signupQueryLimit "free" = 30 ∧
    (pricingPlans.getD 0 ⟨"", "", "", "", []⟩).queries = "30 queries/month" ∧
    canQuery (some exSessionFreeAt5) ⟨0, 0⟩ = false ∧
    PLAN_LIMITS PlanTier.free ≠ signupQueryLimit "free" := by
  decide

/-- C2: a signed-in user with `queryLimit = 30`, `queriesUsed = 30` and a
reset date still in the future is denied before any work: `sendMessage`
contacts no backend, performs no increment, leaves the stored quota state
(including its always-present reset date) untouched, and
`getRemainingQueries` reports 0.  (In the model as in the source,
`queryResetDate` is a total field, so the stored reset date is never
null.) -/
theorem quota_denial_before_work (s : Session) (text : String) (now respT : Time)
    (r : FetchResult)
    (hlim : s.user.queryLimit = 30)
    (hused : s.user.queriesUsed = 30)
    (hfut : Time.leb s.user.queryResetDate now = false)
    (htext : ¬ trimStr text = "") :
    (sendMessage text false (some s) now respT r).backendCalled = false ∧
    (sendMessage text false (some s) now respT r).quotaIncrements = 0 ∧
    (sendMessage text false (some s) now respT r).session = some s ∧
    getRemainingQueries (some s) now = 0 := by
  have hcan : canQuery (some s) now = false := by
    simp [canQuery, hlim, hused, hfut]
  refine ⟨?_, ?_, ?_, ?_⟩ <;>
    simp [sendMessage, getRemainingQueries, htext, hcan, hlim, hused, hfut]

theorem quota_denial_before_work_witness :
    (sendMessage "hello" false (some exSession30) ⟨0, 0⟩ ⟨0, 0⟩ FetchResult.netError).backendCalled = false ∧
    (sendMessage "hello" false (some exSession30) ⟨0, 0⟩ ⟨0, 0⟩ FetchResult.netError).quotaIncrements = 0 ∧
    (sendMessage "hello" false (some exSession30) ⟨0, 0⟩ ⟨0, 0⟩ FetchResult.netError).session = some exSession30 ∧
    getRemainingQueries (some exSession30) ⟨0, 0⟩ = 0 :=
  quota_denial_before_work exSession30 "hello" ⟨0, 0⟩ ⟨0, 0⟩ FetchResult.netError
    rfl rfl (by decide) (by decide)

/-- C3 counterexample: the question "hello" uses neither the word "query"
nor "database", yet the assistant message that `sendMessage` itself
inserts on quota denial contains "query" — the client-inserted messages do
not satisfy the no-backend-vocabulary property. -/
theorem client_message_vocab_counterexample :
    strContains "hello" "query" = false ∧
    strContains "hello" "database" = false ∧
    ((sendMessage "hello" false (some exSession30) ⟨0, 0⟩ ⟨0, 0⟩
        FetchResult.netError).appended.getD 1 ⟨Role.user, "", none⟩).role = Role.assistant ∧
    strContains ((sendMessage "hello" false (some exSession30) ⟨0, 0⟩ ⟨0, 0⟩
        FetchResult.netError).appended.getD 1 ⟨Role.user, "", none⟩).content "query" = true := by
  decide

/-- C3 amended: the client-inserted messages do contain backend
vocabulary regardless of the question — both variants of the quota-limit
message contain the token "query", and the request-failure message
contains the token "database". -/
theorem client_messages_contain_backend_vocab :
    strContains (limitMessageContent true) "query" = true ∧
    strContains (limitMessageContent false) "query" = true ∧
    strContains fetchErrorContent "database" = true := by
  decide

/-- C7 counterexample: an indie user at their limit of 150 is denied, yet
the denial message nowhere states "150" — it does not state the user's
query limit; and the denial message a free-plan user sees mentions no
reset at all. -/
theorem denial_message_counterexample :
    (sendMessage "hello" false (some exSessionIndieFull) ⟨0, 0⟩ ⟨0, 0⟩
        FetchResult.netError).backendCalled = false ∧
    strContains ((sendMessage "hello" false (some exSessionIndieFull) ⟨0, 0⟩ ⟨0, 0⟩
        FetchResult.netError).appended.getD 1 ⟨Role.user, "", none⟩).content "150" = false ∧
    strContains ((sendMessage "hello" false (some exSession30) ⟨0, 0⟩ ⟨0, 0⟩
        FetchResult.netError).appended.getD 1 ⟨Role.user, "", none⟩).content "reset" = false := by
  decide

/-- C7 amended: the denial message tells the user they have reached their
monthly query limit; for free-plan users it then pitches paid upgrades
(stating neither the user's numeric limit nor any reset time), and for
other plans it says queries reset on the 1st of next month (still without
stating the numeric limit). -/
theorem denial_message_states_limit_reached :
    strContains (limitMessageContent true) "reached your monthly query limit" = true ∧
    strContains (limitMessageContent true) "Upgrade to Indie" = true ∧
    strContains (limitMessageContent false) "reached your monthly query limit" = true ∧
    strContains (limitMessageContent false) "reset on the 1st of next month" = true := by
  decide

/-- C5: the quota count is mutated exactly once per completed chat
request and never on failure: when the fetch throws or the response is
non-OK, `sendMessage` performs zero increments and leaves the quota state
untouched; when the request goes through (non-empty text, not loading,
quota allows) and the response is OK, it performs exactly one
`incrementQueryCount` — with no distinction between conversational and
analytical answers. -/
theorem quota_mutated_once_per_completed_request
    (text : String) (loading : Bool) (session : Option Session)
    (sendT respT : Time) (r : FetchResult) :
    ((r = FetchResult.netError ∨ ∃ st, r = FetchResult.httpError st) →
        (sendMessage text loading session sendT respT r).session = session ∧
        (sendMessage text loading session sendT respT r).quotaIncrements = 0) ∧
    (∀ answer sq, r = FetchResult.ok answer sq → ¬ trimStr text = "" → loading = false →
        canQuery session sendT = true →
        (sendMessage text loading session sendT respT r).session =
          incrementQueryCount session respT ∧
        (sendMessage text loading session sendT respT r).quotaIncrements = 1) := by
  constructor
  · intro hr
    unfold sendMessage
    split
    · exact ⟨rfl, rfl⟩
    · split
      · exact ⟨rfl, rfl⟩
      · rcases hr with h | ⟨st, h⟩ <;> subst h <;> exact ⟨rfl, rfl⟩
  · intro answer sq hr htext hload hcan
    subst hr hload
    simp [sendMessage, htext, hcan]

theorem quota_mutated_once_per_completed_request_witness :
    (sendMessage "hi" false (some exSessionFree) ⟨0, 0⟩ ⟨0, 1⟩
        (FetchResult.ok "The average is 6.7 hours." none)).session =
      incrementQueryCount (some exSessionFree) ⟨0, 1⟩ ∧
    (sendMessage "hi" false (some exSessionFree) ⟨0, 0⟩ ⟨0, 1⟩
        (FetchResult.ok "The average is 6.7 hours." none)).quotaIncrements = 1 :=
  (quota_mutated_once_per_completed_request "hi" false (some exSessionFree) ⟨0, 0⟩ ⟨0, 1⟩
      (FetchResult.ok "The average is 6.7 hours." none)).2
    "The average is 6.7 hours." none rfl (by decide) rfl (by decide)

/-- Bounding lemma for the repair loop: starting at attempt `a` with
`b` repairs still allowed, at most `a + b + 1` tries are accounted for. -/
theorem runRepair_tries_le (exec : Nat → Bool) :
    ∀ b a, (runRepair exec a b).tries ≤ a + b + 1 := by
  intro b
  induction b with
  | zero =>
      intro a
      unfold runRepair
      split <;> simp [LoopResult.tries]
  | succ b ih =>
      intro a
      unfold runRepair
      split
      · simp only [LoopResult.tries]
        omega
      · have h := ih (a + 1)
        omega

/-- C8: for any sequence of execution outcomes, the Executor/Repair Loop
performs at most `MAX_REPAIR_ATTEMPTS = 2` repairs beyond the first try —
at most 3 tries in total — and always terminates in the `Succeeded` or
`Exhausted` terminal state. -/
theorem repair_loop_bounded (exec : Nat → Bool) :
    (repairLoop exec).tries ≤ MAX_REPAIR_ATTEMPTS + 1 ∧
    MAX_REPAIR_ATTEMPTS = 2 ∧
    ((∃ n, repairLoop exec = LoopResult.Succeeded n) ∨
     (∃ n, repairLoop exec = LoopResult.Exhausted n)) := by
  refine ⟨?_, rfl, ?_⟩
  · have h := runRepair_tries_le exec MAX_REPAIR_ATTEMPTS 0
    simpa [repairLoop] using h
  · cases h : repairLoop exec with
    | Succeeded n => exact Or.inl ⟨n, rfl⟩
    | Exhausted n => exact Or.inr ⟨n, rfl⟩

/-- The three ways `canQuery` can allow a signed-in user. -/
theorem canQuery_true_cases {s : Session} {now : Time}
    (h : canQuery (some s) now = true) :
    s.user.queryLimit = -1 ∨ Time.leb s.user.queryResetDate now = true ∨
      s.user.queriesUsed < s.user.queryLimit := by
  by_cases h1 : s.user.queryLimit = -1
  · exact Or.inl h1
  by_cases h2 : Time.leb s.user.queryResetDate now = true
  · exact Or.inr (Or.inl h2)
  · right; right
    simp [canQuery, h1, h2] at h
    exact h

/-- An allowed increment keeps the count within a positive limit: if
`canQuery` held at the send instant and the response arrives no earlier,
the updated count stays at or below the unchanged limit. -/
theorem incrementUser_inv {s : Session} {t1 t2 : Time}
    (hwf : Time.leb t1 t2 = true)
    (hpos : 0 < s.user.queryLimit)
    (hcan : canQuery (some s) t1 = true) :
    (incrementUser s.user t2).queriesUsed ≤ (incrementUser s.user t2).queryLimit ∧
    (incrementUser s.user t2).queryLimit = s.user.queryLimit := by
  have hlim : (incrementUser s.user t2).queryLimit = s.user.queryLimit := by
    unfold incrementUser
    split <;> rfl
  refine ⟨?_, hlim⟩
  rw [hlim]
  rcases canQuery_true_cases hcan with h | h | h
  · omega
  · have hr2 : Time.leb s.user.queryResetDate t2 = true := Time.leb_trans h hwf
    simp [incrementUser, hr2]
    omega
  · by_cases hr : Time.leb s.user.queryResetDate t2 = true
    · simp [incrementUser, hr]
      omega
    · simp [incrementUser, hr]
      omega

/-- One chat interaction keeps the quota state present and within a
positive limit, leaving the limit itself unchanged. -/
theorem stepEvent_inv (s : Session) (e : ChatEvent)
    (hwf : Time.leb e.sendTime e.respTime = true)
    (hpos : 0 < s.user.queryLimit)
    (hinv : s.user.queriesUsed ≤ s.user.queryLimit) :
    ∃ s1, stepEvent (some s) e = some s1 ∧
      s1.user.queryLimit = s.user.queryLimit ∧
      s1.user.queriesUsed ≤ s1.user.queryLimit := by
  unfold stepEvent sendMessage
  split
  · exact ⟨s, rfl, rfl, hinv⟩
  · by_cases hcan : canQuery (some s) e.sendTime = false
    · rw [if_pos hcan]
      exact ⟨s, rfl, rfl, hinv⟩
    · rw [if_neg hcan]
      have hcan' : canQuery (some s) e.sendTime = true := by
        cases hq : canQuery (some s) e.sendTime
        · exact absurd hq hcan
        · rfl
      cases e.result with
      | netError => exact ⟨s, rfl, rfl, hinv⟩
      | httpError st => exact ⟨s, rfl, rfl, hinv⟩
      | ok answer sq =>
          exact ⟨{ s with user := incrementUser s.user e.respTime }, rfl,
            (incrementUser_inv hwf hpos hcan').2,
            (incrementUser_inv hwf hpos hcan').1⟩

/-- The step invariant extended to a whole sequence of interactions. -/
theorem runEvents_inv (events : List ChatEvent) :
    ∀ s : Session, (∀ e ∈ events, Time.leb e.sendTime e.respTime = true) →
      0 < s.user.queryLimit → s.user.queriesUsed ≤ s.user.queryLimit →
      ∃ s1, runEvents (some s) events = some s1 ∧
        s1.user.queryLimit = s.user.queryLimit ∧
        s1.user.queriesUsed ≤ s1.user.queryLimit := by
  induction events with
  | nil =>
      intro s _ _ hinv
      exact ⟨s, rfl, rfl, hinv⟩
  | cons e es ih =>
      intro s hwf hpos hinv
      obtain ⟨s1, hstep, hlim1, hinv1⟩ :=
        stepEvent_inv s e (hwf e (List.mem_cons_self e es)) hpos hinv
      obtain ⟨s2, hrun, hlim2, hinv2⟩ :=
        ih s1 (fun e' he' => hwf e' (List.mem_cons_of_mem e he')) (hlim1 ▸ hpos) hinv1
      refine ⟨s2, ?_, ?_, hinv2⟩
      · show List.foldl stepEvent (stepEvent (some s) e) es = some s2
        rw [hstep]
        exact hrun
      · rw [hlim2, hlim1]

/-- C1: for a signed-in user whose limit is the (non-unlimited) limit of
their plan — as every account this client creates has, with every
non-unlimited plan limit positive — and starting within the limit, no
sequence of chat interactions (each response arriving no earlier than its
send) can push the tracked `queriesUsed` above `queryLimit`: `sendMessage`
gates each request on `canQuery`, and the single `incrementQueryCount`
per successful response either adds one below the limit or resets the
count to 1 on rollover. -/
theorem quota_never_exceeds_limit (s0 : Session) (events : List ChatEvent)
    (hplan : s0.user.queryLimit = PLAN_LIMITS s0.user.plan)
    (hne : s0.user.queryLimit ≠ -1)
    (hinit : s0.user.queriesUsed ≤ s0.user.queryLimit)
    (hwf : ∀ e ∈ events, Time.leb e.sendTime e.respTime = true) :
    ∀ s1, runEvents (some s0) events = some s1 →
      s1.user.queriesUsed ≤ s1.user.queryLimit := by
  have hpos : 0 < s0.user.queryLimit := by
    rw [hplan]
    rw [hplan] at hne
    cases hp : s0.user.plan
    · decide
    · decide
    · rw [hp] at hne; exact absurd rfl hne
  intro s1 h1
  obtain ⟨s2, hrun, _, hinv⟩ := runEvents_inv events s0 hwf hpos hinit
  rw [h1] at hrun
  obtain rfl := Option.some.inj hrun
  exact hinv

theorem quota_never_exceeds_limit_witness :
    exFinalSession.user.queriesUsed ≤ exFinalSession.user.queryLimit :=
  quota_never_exceeds_limit exSessionFree exEvents rfl (by decide) (by decide)
    (by
      intro e he
      simp only [exEvents, List.mem_singleton] at he
      subst he
      decide)
    exFinalSession (by decide)

/-- C9: within a chat thread the stored messages are never rewritten:
with a chat selected, `saveMessage` appends exactly the one new message
at the end of the selected chat's list (so stored order is arrival order)
and leaves every other chat's messages — and every already-stored
message — untouched; `renameChat` changes no message list at all; and
`selectChat` leaves the session list entirely unchanged. -/
theorem chat_history_append_only
    (st : ChatState) (m : ChatMessage) (nid cid tid newTitle : String) (now : Time)
    (hcur : st.currentChatId = some cid) :
    (saveMessage st m nid now).chatSessions.map (fun c => (c.id, c.messages)) =
      st.chatSessions.map
        (fun c => (c.id, if c.id = cid then c.messages ++ [m] else c.messages)) ∧
    (renameChat st tid newTitle now).chatSessions.map (fun c => (c.id, c.messages)) =
      st.chatSessions.map (fun c => (c.id, c.messages)) ∧
    (selectChat st tid).chatSessions = st.chatSessions := by
  refine ⟨?_, ?_, rfl⟩
  · simp only [saveMessage, hcur, List.map_map]
    have hfun : ((fun c : ChatSession => (c.id, c.messages)) ∘ appendToChat cid m now) =
        fun c : ChatSession => (c.id, if c.id = cid then c.messages ++ [m] else c.messages) := by
      funext c
      by_cases h : c.id = cid <;> simp [appendToChat, h, Function.comp]
    rw [hfun]
  · simp only [renameChat, List.map_map]
    have hfun : ((fun c : ChatSession => (c.id, c.messages)) ∘
          fun chat => if chat.id = tid then
            { chat with
              title := if trimStr newTitle = "" then "Untitled Chat" else trimStr newTitle,
              updatedAt := now }
          else chat) =
        fun c : ChatSession => (c.id, c.messages) := by
      funext c
      by_cases h : c.id = tid <;> simp [h, Function.comp]
    rw [hfun]

theorem chat_history_append_only_witness :
    (saveMessage exChatState exChatMsg "c9" ⟨0, 2⟩).chatSessions.map
        (fun c => (c.id, c.messages)) =
      exChatState.chatSessions.map
        (fun c => (c.id, if c.id = "c1" then c.messages ++ [exChatMsg] else c.messages)) ∧
    (renameChat exChatState "c1" "Renamed" ⟨0, 2⟩).chatSessions.map
        (fun c => (c.id, c.messages)) =
      exChatState.chatSessions.map (fun c => (c.id, c.messages)) ∧
    (selectChat exChatState "c1").chatSessions = exChatState.chatSessions :=
  chat_history_append_only exChatState exChatMsg "c9" "c1" "c1" "Renamed" ⟨0, 2⟩ rfl

end PlayIntel
